import Mathlib

/-!
Shallow embedding of the Grenada election-results scraper (main.py):
text cleaning, numeric coercion, table location, the summary-table
extractor and the by-constituency extractor, together with theorems
checking the specification's claims about them.
-/

namespace Grenada

/-- Lowercase every character of a string, modelling Python str.lower on
the ASCII texts handled here. -/
def strLower (s : String) : String := String.mk (s.toList.map Char.toLower)

/-- Strip leading and trailing whitespace from a character list,
modelling Python str.strip(). -/
def trimChars (l : List Char) : List Char :=
  ((l.dropWhile Char.isWhitespace).reverse.dropWhile Char.isWhitespace).reverse

/-- Python str.strip() on strings. -/
def strTrim (s : String) : String := String.mk (trimChars s.toList)

/-- Substring test on character lists: does the haystack contain the
needle as a contiguous run?  This models the Python `in` operator. -/
def containsCharList (needle : List Char) : List Char → Bool
  | [] => needle.isPrefixOf []
  | c :: rest => needle.isPrefixOf (c :: rest) || containsCharList needle rest

/-- Python substring containment `needle in hay`. -/
def strContains (hay needle : String) : Bool :=
  containsCharList needle.toList hay.toList

/-- Replace every maximal run of whitespace with a single space,
modelling re.sub of one-or-more whitespace with " ". -/
def collapseWs : List Char → List Char
  | [] => []
  | [c] => if c.isWhitespace then [' '] else [c]
  | a :: b :: rest =>
    if a.isWhitespace then
      (if b.isWhitespace then collapseWs (b :: rest) else ' ' :: collapseWs (b :: rest))
    else a :: collapseWs (b :: rest)

/-- Drop bracketed footnote markers such as "[3]", modelling re.sub of a
bracketed digit run with "".  The fuel bounds the recursion by the input
length, which suffices because every step consumes at least one
character. -/
def removeFootnotesAux : Nat → List Char → List Char
  | 0, l => l
  | _ + 1, [] => []
  | fuel + 1, c :: rest =>
    if c == '[' && !(rest.takeWhile Char.isDigit).isEmpty
        && ((rest.dropWhile Char.isDigit).head? == some ']') then
      removeFootnotesAux fuel (rest.dropWhile Char.isDigit).tail
    else c :: removeFootnotesAux fuel rest

/-- Remove bracketed footnote markers from a character list. -/
def removeFootnotes (l : List Char) : List Char := removeFootnotesAux l.length l

/-- clean_text from main.py: strip, drop footnote references, collapse
interior whitespace runs to single spaces, strip again. -/
def clean_text (s : String) : String :=
  String.mk (trimChars (collapseWs (removeFootnotes (trimChars s.toList))))

/-- Decimal value of a digit list, as Python int() on a digit string. -/
def digitsToNat (l : List Char) : Nat :=
  l.foldl (fun acc c => 10 * acc + (c.toNat - '0'.toNat)) 0

/-- parse_int from main.py: strip every non-digit character and parse the
remainder; None when no digit remains. -/
def parse_int (value : String) : Option Int :=
  let cleaned := value.toList.filter Char.isDigit
  if cleaned.isEmpty then none else some (Int.ofNat (digitsToNat cleaned))

/-- Round the non-negative fraction num / den (den positive) to the
nearest natural number, halves to even: the rounding Python round
applies. -/
def roundHalfEvenFrac (num den : Nat) : Nat :=
  let f := num / den
  let r := num % den
  if 2 * r < den then f
  else if den < 2 * r then f + 1
  else if f % 2 = 0 then f else f + 1

/-- Numerator of the decimal string's value over scale 10 ^ (fractional
length): for digits ip and fractional digits fp the value is
scaledNum / scaledDen. -/
def scaledNum (l : List Char) : Nat :=
  let ip := l.takeWhile (fun c => c ≠ '.')
  let fp := (l.dropWhile (fun c => c ≠ '.')).tail
  digitsToNat ip * 10 ^ fp.length + digitsToNat fp

/-- Denominator matching scaledNum: 10 to the number of fractional
digits. -/
def scaledDen (l : List Char) : Nat :=
  10 ^ ((l.dropWhile (fun c => c ≠ '.')).tail).length

/-- parse_float from main.py: keep only digits and the decimal point;
float() succeeds on the remainder exactly when at least one digit and at
most one point remain, and the result is rounded to two decimal places;
otherwise None.  A value rounded to two decimals is an exact multiple of
one hundredth, so the result is represented exactly as its number of
hundredths: parse_float "45.67%" is some 4567, meaning 45.67. -/
def parse_float (value : String) : Option Int :=
  let cleaned := value.toList.filter (fun c => c.isDigit || c == '.')
  if cleaned.any Char.isDigit && (cleaned.filter (fun c => c == '.')).length ≤ 1 then
    some (Int.ofNat (roundHalfEvenFrac (100 * scaledNum cleaned) (scaledDen cleaned)))
  else none

/-- One td or th cell: its tag, its flattened text, and the raw rowspan
attribute and parsed colspan attribute when present. -/
structure Cell where
  tag : String
  text : String
  rowspan : Option String := none
  colspan : Option Nat := none
deriving DecidableEq, Inhabited, Repr

/-- One tr row: its cells in document order. -/
structure Row where
  cells : List Cell
deriving DecidableEq, Inhabited, Repr

/-- A table: whether it carries the wikitable marker class, and its rows. -/
structure Table where
  wikitable : Bool
  rows : List Row
deriving DecidableEq, Inhabited, Repr

/-- A parsed page: the ids of its elements, and its tables in document
order. -/
structure Soup where
  ids : List String
  tables : List Table
deriving DecidableEq, Inhabited, Repr

/-- find_all of td and th on a row, in document order. -/
def rowCells (r : Row) : List Cell :=
  r.cells.filter (fun c => c.tag == "td" || c.tag == "th")

/-- find_all of th on a row, in document order. -/
def rowThs (r : Row) : List Cell :=
  r.cells.filter (fun c => c.tag == "th")

/-- row.get_text(): the concatenated text of the row's cells. -/
def rowText (r : Row) : String := String.join (r.cells.map (fun c => c.text))

/-- th.get_text(strip=True).lower() on a cell. -/
def thStripLower (c : Cell) : String := strLower (strTrim c.text)

/-- is_results_table from main.py: some row's header cells mention party,
votes and seats. -/
def is_results_table (t : Table) : Bool :=
  t.rows.any (fun r =>
    let headers := (rowThs r).map thStripLower
    headers.any (fun h => strContains h "party") &&
      headers.any (fun h => strContains h "votes") &&
      headers.any (fun h => strContains h "seats"))

/-- find_results_table from main.py: the first wikitable qualifying as a
results table. -/
def find_results_table (soup : Soup) : Option Table :=
  (soup.tables.filter (fun t => t.wikitable)).find? is_results_table

/-- is_constituency_table from main.py: some row's header cells mention
constituency. -/
def is_constituency_table (t : Table) : Bool :=
  t.rows.any (fun r =>
    ((rowThs r).map thStripLower).any (fun h => strContains h "constituency"))

/-- find_constituency_table from main.py: None unless the page carries
the By_constituency anchor, else the first qualifying wikitable. -/
def find_constituency_table (soup : Soup) : Option Table :=
  if !(soup.ids.contains "By_constituency") then none
  else (soup.tables.filter (fun t => t.wikitable)).find? is_constituency_table

/-- Expand a header row's th cells honoring colspan, the text cleaned and
lowercased, as both extractors do. -/
def buildHeaders (header_row : Row) : List String :=
  List.flatten ((rowThs header_row).map (fun th =>
    List.replicate (th.colspan.getD 1) (strLower (clean_text th.text))))

/-- col_idx from main.py: the first header containing any of the names,
the names tried in order. -/
def col_idx (headers : List String) (names : List String) : Option Nat :=
  names.findSome? (fun name => List.findIdx? (fun h => strContains h name) headers)

/-- One party row of the summary table. -/
structure PartyResult where
  party : String
  votes : Option Int
  percentage : Option Int
  seats : Option Int
  change : String
deriving DecidableEq, Inhabited, Repr

/-- Resolved logical column positions of the summary table. -/
structure SummaryCols where
  party_col : Option Nat
  votes_col : Option Nat
  seats_col : Option Nat
  pct_col : Option Nat
  change_col : Option Nat
deriving DecidableEq, Inhabited, Repr

/-- Indices of summary headers whose stripped text is exactly "%". -/
def summaryPctIndices (headers : List String) : List Nat :=
  (headers.enum.filter (fun p => strTrim p.2 == "%")).map (fun p => p.1)

/-- Column resolution of parse_results_table. -/
def mkSummaryCols (headers : List String) : SummaryCols :=
  { party_col := col_idx headers ["party"]
    votes_col := col_idx headers ["votes"]
    seats_col := col_idx headers ["seats"]
    pct_col := (summaryPctIndices headers).head?
    change_col := col_idx headers ["+", "change", "swing"] }

/-- Footer keywords of parse_results_table line 266. -/
def summaryFooterKeywords : List String :=
  ["total", "source", "valid", "invalid", "registered", "blank"]

/-- Footer keywords of parse_by_constituency_table line 132. -/
def constFooterKeywords : List String :=
  ["total", "source", "valid votes", "invalid", "registered"]

/-- Footer-row test shared by both extractors: some keyword occurs in the
row's cleaned, lowercased text. -/
def isFooterRow (kws : List String) (row_text : String) : Bool :=
  kws.any (fun kw => strContains row_text kw)

/-- Cell accessor of parse_results_table: empty string when the column is
unresolved or out of range. -/
def getSummaryCol (cells : List Cell) : Option Nat → String
  | none => ""
  | some idx =>
    match cells[idx]? with
    | some c => clean_text c.text
    | none => ""

/-- One data-row step of parse_results_table. -/
def summaryStep (cols : SummaryCols) (acc : List PartyResult) (row : Row) :
    List PartyResult :=
  let cells := rowCells row
  if cells.isEmpty then acc
  else
    let row_text := strLower (clean_text (rowText row))
    if isFooterRow summaryFooterKeywords row_text then acc
    else
      let party0 := getSummaryCol cells cols.party_col
      let party := if party0 == "" && cols.party_col.isSome then
          getSummaryCol cells (cols.party_col.map (· + 1)) else party0
      let votes := getSummaryCol cells cols.votes_col
      let pct := getSummaryCol cells cols.pct_col
      let seats := getSummaryCol cells cols.seats_col
      let change := getSummaryCol cells cols.change_col
      if party == "" && votes == "" then acc
      else acc ++ [⟨party, parse_int votes, parse_float pct, parse_int seats, change⟩]

/-- Find the first row satisfying a test, with its index. -/
def findHeaderRowBy (rows : List Row) (p : Row → Bool) : Option (Nat × Row) :=
  rows.enum.find? (fun ir => p ir.2)

/-- Header-row test of parse_results_table: some th mentions votes. -/
def summaryHeaderTest (r : Row) : Bool :=
  (rowThs r).any (fun th => strContains (thStripLower th) "votes")

/-- parse_results_table from main.py. -/
def parse_results_table (table : Table) : List PartyResult :=
  let rows := table.rows
  if rows.isEmpty then []
  else
    match findHeaderRowBy rows summaryHeaderTest with
    | none => []
    | some (i, header_row) =>
      let headers := buildHeaders header_row
      let cols := mkSummaryCols headers
      (rows.drop (i + 1)).foldl (summaryStep cols) []

/-- One candidate row of the constituency table. -/
structure Candidate where
  candidate : String
  party : String
  votes : Option Int
  percentage : Option Int
deriving DecidableEq, Inhabited, Repr

/-- Per-group data accumulated while walking the constituency table. -/
structure GroupData where
  electorate : Option Int
  turnout : Option Int
  turnout_pct : Option Int
  candidates : List Candidate
deriving DecidableEq, Inhabited, Repr

/-- The winner sub-object of a constituency record. -/
structure WinnerRec where
  candidate : Option String
  party : Option String
  votes : Option Int
deriving DecidableEq, Inhabited, Repr

/-- One emitted constituency record. -/
structure ConstituencyOut where
  constituency : String
  electorate : Option Int
  turnout : Option Int
  turnout_pct : Option Int
  total_votes : Int
  winner : WinnerRec
  candidates : List Candidate
deriving DecidableEq, Inhabited, Repr

/-- Resolved logical column positions of the constituency table. -/
structure ConstCols where
  const_col : Option Nat
  elect_col : Option Nat
  turnout_col : Option Nat
  party_col : Option Nat
  candidate_col : Option Nat
  votes_col : Option Nat
  turnout_pct_col : Option Nat
  pct_col : Option Nat
deriving DecidableEq, Inhabited, Repr

/-- Indices of constituency headers whose stripped text is exactly "%"
or "percentage". -/
def constPctIndices (headers : List String) : List Nat :=
  (headers.enum.filter (fun p => strTrim p.2 == "%" || strTrim p.2 == "percentage")).map
    (fun p => p.1)

/-- Column resolution of parse_by_constituency_table. -/
def mkConstCols (headers : List String) : ConstCols :=
  let pcts := constPctIndices headers
  { const_col := col_idx headers ["constituency"]
    elect_col := col_idx headers ["electorate"]
    turnout_col := col_idx headers ["turnout"]
    party_col := col_idx headers ["party", "political"]
    candidate_col := col_idx headers ["candidate"]
    votes_col := col_idx headers ["votes"]
    turnout_pct_col := pcts.head?
    pct_col := match pcts with
      | _ :: second :: _ => some second
      | [only] => some only
      | [] => none }

/-- Python truthiness of the rowspan attribute: present with a non-empty
value. -/
def rowspanTruthy (c : Cell) : Bool := !(c.rowspan.getD "" == "")

/-- Remove commas and periods, as the chained str.replace calls do. -/
def stripCommaDot (s : String) : String :=
  String.mk (s.toList.filter (fun c => c ≠ ',' && c ≠ '.'))

/-- Python str.isdigit: non-empty and all digits. -/
def pyIsdigit (s : String) : Bool := !s.toList.isEmpty && s.toList.all Char.isDigit

/-- Purely-numeric test of the fallback heuristic: digits after commas
and periods are removed. -/
def digitLike (s : String) : Bool := pyIsdigit (stripCommaDot s)

/-- New-group test of parse_by_constituency_table lines 137-141: rowspan
attribute present (Python truthiness), or the constituency column is
logical column 0 and the first cell's text is non-empty and not purely
numeric. -/
def is_new_row (first_cell : Cell) (first_cell_text : String) (const_col : Option Nat) :
    Bool :=
  rowspanTruthy first_cell ||
    ((const_col == some 0) && !(first_cell_text == "") && !digitLike first_cell_text)

/-- Cell accessor of parse_by_constituency_table lines 151-157: the index
is shifted down by one; empty string when the column is unresolved or the
shifted index is out of range. -/
def getCol (data_cells : List Cell) : Option Nat → String
  | none => ""
  | some idx =>
    if 1 ≤ idx then
      match data_cells[idx - 1]? with
      | some c => clean_text c.text
      | none => ""
    else ""

/-- Accumulator of the constituency row walk: the groups keyed by name in
insertion order, and the current constituency name. -/
abbrev ConstState := List (String × GroupData) × Option String

/-- Membership test on the grouped accumulator, as the Python dict
membership test. -/
def assocHas (l : List (String × GroupData)) (k : String) : Bool :=
  l.any (fun p => p.1 == k)

/-- Append a candidate to the group with the given name. -/
def appendCandidate (l : List (String × GroupData)) (k : String) (cand : Candidate) :
    List (String × GroupData) :=
  l.map (fun p =>
    if p.1 == k then (p.1, { p.2 with candidates := p.2.candidates ++ [cand] }) else p)

/-- The candidate record extracted from a row's data cells: candidate
text, party text with the empty-party fallback to the next column, parsed
votes and percentage. -/
def mkCand (cols : ConstCols) (data_cells : List Cell) : Candidate :=
  let party0 := getCol data_cells cols.party_col
  let party := if party0 == "" && cols.party_col.isSome then
      getCol data_cells (cols.party_col.map (· + 1)) else party0
  ⟨getCol data_cells cols.candidate_col, party,
    parse_int (getCol data_cells cols.votes_col),
    parse_float (getCol data_cells cols.pct_col)⟩

/-- The fresh group record created on first occurrence of a name: the
metadata strings are read only when the row starts a group, and the
candidate list starts with the row's candidate. -/
def freshGroup (cols : ConstCols) (is_new : Bool) (data_cells : List Cell)
    (cand : Candidate) : GroupData :=
  ⟨parse_int (if is_new then getCol data_cells cols.elect_col else ""),
   parse_int (if is_new then getCol data_cells cols.turnout_col else ""),
   parse_float (if is_new then getCol data_cells cols.turnout_pct_col else ""),
   [cand]⟩

/-- The accumulator update of one kept candidate row: append to the
existing group of that name, or create the group at the end, as the
Python dict does. -/
def constUpdate (groups : List (String × GroupData)) (cur : String) (fresh : GroupData)
    (cand : Candidate) : List (String × GroupData) :=
  if assocHas groups cur then appendCandidate groups cur cand
  else groups ++ [(cur, fresh)]

/-- Body of one constituency row step, after the footer-keyword guard has
let the row through. -/
def constStepBody (cols : ConstCols) (st : ConstState) (first_cell : Cell)
    (restCells : List Cell) : ConstState :=
  let cells := first_cell :: restCells
  let first_cell_text := clean_text first_cell.text
  let is_new := is_new_row first_cell first_cell_text cols.const_col
  let current := if is_new && !(first_cell_text == "") then some first_cell_text else st.2
  match current with
  | none => (st.1, none)
  | some cur =>
    if cur == "" then (st.1, some cur)
    else
      let data_cells := if is_new then cells.tail else cells
      let cand := mkCand cols data_cells
      if cand.candidate == "" && getCol data_cells cols.votes_col == "" then (st.1, some cur)
      else (constUpdate st.1 cur (freshGroup cols is_new data_cells cand) cand, some cur)

/-- One data-row step of parse_by_constituency_table. -/
def constStep (cols : ConstCols) (st : ConstState) (row : Row) : ConstState :=
  match rowCells row with
  | [] => st
  | fc :: rc =>
    if isFooterRow constFooterKeywords (strLower (clean_text (rowText row))) then st
    else constStepBody cols st fc rc

/-- Keep the first of two elements unless the second has a strictly
larger key, as one step of Python max. -/
def pickMax {α : Type} (key : α → Int) (b x : α) : α := if key x > key b then x else b

/-- Python max over the candidates with known votes, keyed by the vote
count, default None: the first candidate attaining the maximum. -/
def winnerOf (cs : List Candidate) : Option Candidate :=
  match cs.filter (fun c => c.votes.isSome) with
  | [] => none
  | c :: rest => some (rest.foldl (pickMax (fun c => c.votes.getD 0)) c)

/-- Final record construction of parse_by_constituency_table lines
189-210: total over known votes and winner selection. -/
def buildConstituency (name : String) (d : GroupData) : ConstituencyOut :=
  { constituency := name
    electorate := d.electorate
    turnout := d.turnout
    turnout_pct := d.turnout_pct
    total_votes :=
      ((d.candidates.filter (fun c => c.votes.isSome)).map (fun c => c.votes.getD 0)).sum
    winner :=
      match winnerOf d.candidates with
      | some w => ⟨some w.candidate, some w.party, w.votes⟩
      | none => ⟨none, none, none⟩
    candidates := d.candidates }

/-- Header-row test of parse_by_constituency_table: some th mentions
constituency. -/
def constHeaderTest (r : Row) : Bool :=
  (rowThs r).any (fun th => strContains (thStripLower th) "constituency")

/-- parse_by_constituency_table from main.py. -/
def parse_by_constituency_table (table : Table) : List ConstituencyOut :=
  let rows := table.rows
  if rows.isEmpty then []
  else
    match findHeaderRowBy rows constHeaderTest with
    | none => []
    | some (i, header_row) =>
      let headers := buildHeaders header_row
      let cols := mkConstCols headers
      let final := (rows.drop (i + 1)).foldl (constStep cols) ([], none)
      final.1.map (fun p => buildConstituency p.1 p.2)

/-- Extraction output of one page: the mandatory summary records and the
optional constituency records. -/
structure PageOutput where
  results : List PartyResult
  constituencies : Option (List ConstituencyOut)
deriving DecidableEq, Inhabited, Repr

/-- The constituency tail of the main program: a file is produced only
when a table is found and yields at least one group; otherwise the phase
is skipped without error. -/
def constituencyPhase (soup : Soup) : Option (List ConstituencyOut) :=
  match find_constituency_table soup with
  | none => none
  | some t =>
    let cs := parse_by_constituency_table t
    if cs.isEmpty then none else some cs

/-- The page-processing flow of scrape_election_results plus the
constituency tail: missing summary data is fatal, missing constituency
data is not. -/
def processPage (soup : Soup) : Except String PageOutput :=
  match find_results_table soup with
  | none => Except.error "no results table"
  | some t =>
    let rs := parse_results_table t
    if rs.isEmpty then Except.error "no parsed rows"
    else Except.ok ⟨rs, constituencyPhase soup⟩

/-- One full extraction pass over a parsed page: locate and extract both
tables. -/
def extractionRecords (soup : Soup) :
    Option (List PartyResult) × Option (List ConstituencyOut) :=
  ((find_results_table soup).map parse_results_table,
   (find_constituency_table soup).map parse_by_constituency_table)

/-- Two consecutive extraction passes over the same unchanged page. -/
def runExtractionTwice (soup : Soup) :
    (Option (List PartyResult) × Option (List ConstituencyOut)) ×
    (Option (List PartyResult) × Option (List ConstituencyOut)) :=
  (extractionRecords soup, extractionRecords soup)

/-- Parse a string of decimal digits, None otherwise: the value of an
integer attribute. -/
def strToNatDigits (s : String) : Option Nat :=
  if pyIsdigit s then some (digitsToNat s.toList) else none

/-- Reading of claim C2's new-group rule, following the specification's
words: the first cell declares a vertical span strictly greater than one,
or the fallback heuristic holds. -/
def specRowStartsNew (c : Cell) (first_cell_text : String) (const_col : Option Nat) :
    Bool :=
  (((c.rowspan.bind strToNatDigits).getD 1) > 1) ||
    ((const_col == some 0) && !(first_cell_text == "") && !digitLike first_cell_text)

/-- Shorthand for a th cell with given text. -/
def thCell (t : String) : Cell := { tag := "th", text := t }

/-- Shorthand for a td cell with given text. -/
def tdCell (t : String) : Cell := { tag := "td", text := t }

/-- Shorthand for a td cell with given text and rowspan attribute. -/
def tdCellSpan (t s : String) : Cell := { tag := "td", text := t, rowspan := some s }

/-- Header row Constituency-Candidate-Votes. -/
def hdrCCV : Row := ⟨[thCell "Constituency", thCell "Candidate", thCell "Votes"]⟩

/-- Starting data row of the concrete tables: constituency Alpha spanning
two rows, candidate Jane with 100 votes. -/
def rowAlpha : Row := ⟨[tdCellSpan "Alpha" "2", tdCell "Jane", tdCell "100"]⟩

/-- Data row whose text contains the summary footer keyword "blank". -/
def rowBlank : Row := ⟨[tdCell "Blank Smith", tdCell "50"]⟩

/-- Concrete constituency table for claim C1. -/
def tableC1 : Table := ⟨true, [hdrCCV, rowAlpha, rowBlank]⟩

/-- Header row with a leading No. column, putting the constituency column
at logical index 1. -/
def hdrNoCCV : Row := ⟨[thCell "No.", thCell "Constituency", thCell "Candidate", thCell "Votes"]⟩

/-- Data row whose first cell declares rowspan equal to one. -/
def rowSpanOne : Row := ⟨[tdCellSpan "Alpha" "1", tdCell "x", tdCell "Jane", tdCell "100"]⟩

/-- Concrete constituency table for claim C2. -/
def tableC2 : Table := ⟨true, [hdrNoCCV, rowSpanOne]⟩

/-- Non-starting data row: its first cell is purely numeric and carries
no rowspan. -/
def rowShift : Row := ⟨[tdCell "200", tdCell "Bob"]⟩

/-- Concrete constituency table for claim C3. -/
def tableC3 : Table := ⟨true, [hdrCCV, rowAlpha, rowShift]⟩

/-- Header row Party-Votes-Seats of the concrete summary table. -/
def hdrPVS : Row := ⟨[thCell "Party", thCell "Votes", thCell "Seats"]⟩

/-- Data row of the concrete summary table. -/
def rowAcme : Row := ⟨[tdCell "Acme", tdCell "10", tdCell "5"]⟩

/-- Concrete summary table. -/
def tableSummary : Table := ⟨true, [hdrPVS, rowAcme]⟩

/-- A page with a valid summary table and no By_constituency anchor. -/
def soupNoAnchor : Soup := ⟨[], [tableSummary]⟩

/-- A footer row whose text is Total. -/
def rowTotal : Row := ⟨[tdCell "Total"]⟩

/-- Example candidates of the specification's total and winner scenario:
votes 1000, unknown, 2500. -/
def exCandidates : List Candidate :=
  [⟨"A", "PA", some 1000, none⟩, ⟨"B", "PB", none, none⟩, ⟨"C", "PC", some 2500, none⟩]

/-- Example candidates all of whose vote counts are unknown. -/
def exAllNone : List Candidate :=
  [⟨"D", "PD", none, none⟩, ⟨"E", "PE", none, none⟩]

example : clean_text "  a   b[12] c " = "a b c" := by decide
example : parse_int "1,234" = some 1234 := by decide
example : parse_int "—" = none := by decide
example : parse_int "" = none := by decide
example : parse_int "-1" = some 1 := by decide
example : parse_int "4.5" = some 45 := by decide
example : parse_float "45.67%" = some 4567 := by decide
example : parse_float "N/A" = none := by decide
example : parse_float "1.2.3" = none := by decide
example : parse_float ".5" = some 50 := by decide
example : parse_float "5." = some 500 := by decide
example : strContains "blank smith50" "blank" = true := by decide
example : strContains "abc" "" = true := by decide

/-- C1 (counterexample): claim C1 asserts the constituency extractor
skips a row exactly when its lowercased text contains a keyword of the
summary set, which includes "blank".  The concrete row "Blank Smith"
contains "blank", is matched by the summary set but not by the
constituency extractor's own set, and is processed rather than skipped:
it produces the group "Blank Smith" in the output. -/
theorem C1_counterexample :
    strContains (strLower (clean_text (rowText rowBlank))) "blank" = true ∧
    isFooterRow summaryFooterKeywords (strLower (clean_text (rowText rowBlank))) = true ∧
    isFooterRow constFooterKeywords (strLower (clean_text (rowText rowBlank))) = false ∧
    (parse_by_constituency_table tableC1).map (fun g => g.constituency) =
      ["Alpha", "Blank Smith"] := by
  decide

/-- C1 (amended): the constituency extractor skips a nonempty row as a
footer row exactly when its cleaned lowercased text contains one of
"total", "source", "valid votes", "invalid", "registered" — the summary
set with "valid" narrowed to "valid votes" and without "blank"; a row
lacking all five proceeds to the group-building body. -/
theorem C1_footer_set :
    (∀ txt, isFooterRow constFooterKeywords txt =
      (strContains txt "total" || strContains txt "source" ||
        strContains txt "valid votes" || strContains txt "invalid" ||
        strContains txt "registered")) ∧
    (∀ cols st row fc rc, rowCells row = fc :: rc →
      (isFooterRow constFooterKeywords (strLower (clean_text (rowText row))) = true →
        constStep cols st row = st) ∧
      (isFooterRow constFooterKeywords (strLower (clean_text (rowText row))) = false →
        constStep cols st row = constStepBody cols st fc rc)) := by
  constructor
  · intro txt
    simp [isFooterRow, constFooterKeywords, List.any_cons, List.any_nil, Bool.or_assoc]
  · intro cols st row fc rc hc
    unfold constStep
    rw [hc]
    constructor
    · intro hf
      simp [hf]
    · intro hf
      simp [hf]

/-- C1 (witness): the footer-keyword behaviour at the concrete row
"Total": the row is skipped and the state is unchanged. -/
theorem C1_footer_set_witness :
    constStep (mkConstCols []) ([], none) rowTotal = ([], none) ∧
    isFooterRow constFooterKeywords (strLower (clean_text (rowText rowTotal))) = true := by
  have h := (C1_footer_set.2 (mkConstCols []) ([], none) rowTotal (tdCell "Total") []
    (by decide)).1
  exact ⟨h (by decide), by decide⟩

/-- C2 (counterexample): a first cell with rowspan equal to one does
start a new group in the code, because only the presence of the attribute
is tested: on the concrete table the claim's reading would make no row
start a group (the constituency column is logical column 1, so the
fallback is off), yet the extractor produces the group "Alpha" from that
row. -/
theorem C2_counterexample :
    specRowStartsNew (tdCellSpan "Alpha" "1") (clean_text "Alpha") (some 1) = false ∧
    is_new_row (tdCellSpan "Alpha" "1") (clean_text "Alpha") (some 1) = true ∧
    (mkConstCols (buildHeaders hdrNoCCV)).const_col = some 1 ∧
    (parse_by_constituency_table tableC2).map (fun g => g.constituency) = ["Alpha"] := by
  decide

/-- C2 (amended): a row starts a new constituency group if and only if
its first cell carries a rowspan attribute with a non-empty value —
whatever the value, including "1" — or the fallback heuristic holds
(constituency column is logical column 0, first cell text non-empty and
not purely numeric). -/
theorem C2_rowspan_presence : ∀ (c : Cell) (txt : String) (cc : Option Nat),
    (∀ s, c.rowspan = some s → s ≠ "" → is_new_row c txt cc = true) ∧
    ((c.rowspan = none ∨ c.rowspan = some "") →
      is_new_row c txt cc = ((cc == some 0) && !(txt == "") && !digitLike txt)) := by
  intro c txt cc
  constructor
  · intro s hs hne
    simp [is_new_row, rowspanTruthy, hs, hne]
  · intro h
    rcases h with h | h <;> simp [is_new_row, rowspanTruthy, h]

/-- C2 (witness): the rowspan value "1" on a concrete cell suffices to
start a new group even with the fallback off. -/
theorem C2_rowspan_presence_witness :
    is_new_row (tdCellSpan "Alpha" "1") "Alpha" (some 5) = true :=
  (C2_rowspan_presence (tdCellSpan "Alpha" "1") "Alpha" (some 5)).1 "1" rfl (by decide)

/-- C3 (counterexample): on the concrete non-starting row the candidate
column is logical column 1, physical cell 1 holds "Bob", yet the
extracted candidate is "200", the text of physical cell 0: non-starting
rows are read shifted left by one, contradicting the claim that they are
not shifted. -/
theorem C3_counterexample :
    (mkConstCols (buildHeaders hdrCCV)).candidate_col = some 1 ∧
    (rowCells rowShift)[1]? = some (tdCell "Bob") ∧
    is_new_row (tdCell "200") (clean_text (tdCell "200").text) (some 0) = false ∧
    (parse_by_constituency_table tableC3).map
      (fun g => g.candidates.map (fun c => c.candidate)) = [["Jane", "200"]] := by
  decide

/-- C3 (amended): the accessor subtracts one from the logical index, and
a starting row drops its consumed first cell before the accessor runs:
so on a starting row logical column i (i at least 1) is read from
physical cell i of the full row, and on a non-starting row logical column
i is read from physical cell i - 1. -/
theorem C3_column_shift :
    (∀ (cs : List Cell) (i : Nat) (c : Cell), 1 ≤ i → cs[i]? = some c →
      getCol cs.tail (some i) = clean_text c.text) ∧
    (∀ (cs : List Cell) (i : Nat) (c : Cell), 1 ≤ i → cs[i - 1]? = some c →
      getCol cs (some i) = clean_text c.text) := by
  constructor
  · intro cs i c hi hc
    obtain ⟨j, rfl⟩ : ∃ j, i = j + 1 := ⟨i - 1, (Nat.succ_pred_eq_of_pos hi).symm⟩
    cases cs with
    | nil => simp at hc
    | cons a t =>
      simp only [List.getElem?_cons_succ] at hc
      simp [getCol, hc]
  · intro cs i c hi hc
    simp [getCol, hi, hc]

/-- C3 (witness): the two accessor readings at a concrete three-cell
row. -/
theorem C3_column_shift_witness :
    getCol (List.tail [tdCell "a", tdCell "b", tdCell "c"]) (some 1) = "b" ∧
    getCol [tdCell "a", tdCell "b", tdCell "c"] (some 1) = "a" := by
  have h := C3_column_shift
  exact ⟨(h.1 [tdCell "a", tdCell "b", tdCell "c"] 1 (tdCell "b") (by decide)
      (by decide)).trans (by decide),
    (h.2 [tdCell "a", tdCell "b", tdCell "c"] 1 (tdCell "a") (by decide)
      (by decide)).trans (by decide)⟩

/-- C5: the integer parse strips all non-digit characters and parses the
remainder; it is None exactly when the input has no digit — so "1,234"
yields 1234, "—" and "" yield None, and a digitless string never yields
0; the function is total, so no input raises. -/
theorem C5_parse_int : ∀ s : String,
    (parse_int s = none ↔ ∀ c ∈ s.toList, c.isDigit = false) ∧
    ((∀ c ∈ s.toList, c.isDigit = false) → parse_int s ≠ some 0) ∧
    parse_int "1,234" = some 1234 ∧ parse_int "—" = none ∧ parse_int "" = none := by
  intro s
  have hiff : parse_int s = none ↔ ∀ c ∈ s.toList, c.isDigit = false := by
    constructor
    · intro hnone c hc
      by_contra hd
      have hmem : c ∈ s.toList.filter Char.isDigit :=
        List.mem_filter.mpr ⟨hc, by simpa using hd⟩
      unfold parse_int at hnone
      cases hl : s.toList.filter Char.isDigit with
      | nil => rw [hl] at hmem; simp at hmem
      | cons a t => rw [hl] at hnone; simp at hnone
    · intro hall
      unfold parse_int
      cases hl : s.toList.filter Char.isDigit with
      | nil => simp
      | cons a t =>
        exfalso
        have ha : a ∈ s.toList.filter Char.isDigit := by rw [hl]; simp
        have hp := List.mem_filter.mp ha
        rw [hall a hp.1] at hp
        simp at hp
  refine ⟨hiff, fun hall => ?_, by decide, by decide, by decide⟩
  rw [hiff.mpr hall]
  simp

/-- C5 (witness): the integer parse at the concrete inputs of the claim. -/
theorem C5_parse_int_witness : parse_int "—" = none ∧ parse_int "—" ≠ some 0 := by
  have h := C5_parse_int "—"
  exact ⟨h.1.mpr (by decide), h.2.1 (by decide)⟩

/-- C6: the float parse is total (modelled as a total function whose
failures are None): it keeps only digits and the decimal point and
succeeds exactly when at least one digit and at most one point remain;
"45.67%" yields 45.67 (represented as 4567 hundredths) and "N/A" yields
None. -/
theorem C6_parse_float : ∀ s : String,
    ((parse_float s).isSome = true ↔
      ((s.toList.filter (fun c => c.isDigit || c == '.')).any Char.isDigit = true ∧
        ((s.toList.filter (fun c => c.isDigit || c == '.')).filter
          (fun c => c == '.')).length ≤ 1)) ∧
    parse_float "45.67%" = some 4567 ∧ parse_float "N/A" = none := by
  intro s
  refine ⟨?_, by decide, by decide⟩
  unfold parse_float
  by_cases h : ((s.toList.filter (fun c => c.isDigit || c == '.')).any Char.isDigit &&
      decide (((s.toList.filter (fun c => c.isDigit || c == '.')).filter
        (fun c => c == '.')).length ≤ 1)) = true
  · simp only [h, if_true, Option.isSome_some, true_iff]
    simpa [Bool.and_eq_true, decide_eq_true_iff] using h
  · simp only [h, if_false]
    simp only [Bool.and_eq_true, decide_eq_true_iff] at h
    simpa using h

/-- C6 (witness): the float parse at the concrete inputs of the claim. -/
theorem C6_parse_float_witness :
    (parse_float "45.67%").isSome = true ∧ parse_float "N/A" = none := by
  have h := C6_parse_float "45.67%"
  exact ⟨h.1.mpr ⟨by decide, by decide⟩, (C6_parse_float "N/A").2.2⟩

/-- C7: a page without the By_constituency anchor yields no constituency
table, whatever its tables, and processing is not an error: any
successful page output carries no constituency records, the summary-only
outcome. -/
theorem C7_no_anchor : ∀ soup : Soup, soup.ids.contains "By_constituency" = false →
    find_constituency_table soup = none ∧
    ∀ out, processPage soup = Except.ok out → out.constituencies = none := by
  intro soup h
  have hfind : find_constituency_table soup = none := by
    unfold find_constituency_table
    rw [h]
    rfl
  refine ⟨hfind, ?_⟩
  intro out hout
  unfold processPage at hout
  cases hr : find_results_table soup with
  | none => rw [hr] at hout; simp at hout
  | some t =>
    rw [hr] at hout
    by_cases he : (parse_results_table t).isEmpty = true
    · simp [he] at hout
    · simp only [Bool.not_eq_true] at he
      simp only [he, if_false, Except.ok.injEq, Bool.false_eq_true] at hout
      rw [← hout]
      unfold constituencyPhase
      rw [hfind]

/-- C7 (witness): a concrete page with a valid summary table and no
anchor: no constituency table is found, and processing succeeds with the
summary records and no constituency records. -/
theorem C7_no_anchor_witness :
    find_constituency_table soupNoAnchor = none ∧
    processPage soupNoAnchor =
      Except.ok ⟨[⟨"Acme", some 10, none, some 5, ""⟩], none⟩ ∧
    (⟨[⟨"Acme", some 10, none, some 5, ""⟩], none⟩ : PageOutput).constituencies = none := by
  have h := C7_no_anchor soupNoAnchor (by decide)
  exact ⟨h.1, rfl, h.2 ⟨[⟨"Acme", some 10, none, some 5, ""⟩], none⟩ rfl⟩

/-- C9: extraction is deterministic: two extraction passes over the same
unchanged parsed page produce identical summary and constituency record
lists, because both extractors are pure functions of the page. -/
theorem C9_deterministic : ∀ soup : Soup,
    (runExtractionTwice soup).1 = (runExtractionTwice soup).2 := fun _ => rfl

/-- C10: the integer parse never returns a negative number, since signs
and decimal points are stripped with every other non-digit character:
"-1" yields 1 and "4.5" yields 45. -/
theorem C10_nonneg :
    (∀ (s : String) (n : Int), parse_int s = some n → 0 ≤ n) ∧
    parse_int "-1" = some 1 ∧ parse_int "4.5" = some 45 := by
  refine ⟨?_, by decide, by decide⟩
  intro s n h
  unfold parse_int at h
  dsimp only at h
  split at h
  · simp at h
  · injection h with h'
    rw [← h']
    exact Int.ofNat_nonneg _

/-- C10 (witness): the nonnegativity at the concrete input "-1". -/
theorem C10_nonneg_witness : (0 : Int) ≤ 1 ∧ parse_int "-1" = some 1 :=
  ⟨C10_nonneg.1 "-1" 1 C10_nonneg.2.1, C10_nonneg.2.1⟩

/-- Auxiliary: the Python max scan keeps the first element attaining the
maximal key: the scanned list splits around the result, with strictly
smaller keys before it and no larger key after it. -/
theorem foldl_pickMax_first {α : Type} (key : α → Int) (l : List α) :
    ∀ c : α, ∃ l1 l2,
      c :: l = l1 ++ (l.foldl (pickMax key) c) :: l2 ∧
      (∀ y ∈ l1, key y < key (l.foldl (pickMax key) c)) ∧
      (∀ y ∈ l2, key y ≤ key (l.foldl (pickMax key) c)) := by
  induction l with
  | nil =>
    intro c
    exact ⟨[], [], rfl, by simp, by simp⟩
  | cons x xs ih =>
    intro c
    rw [List.foldl_cons]
    by_cases h : key x > key c
    · have hpick : pickMax key c x = x := by simp [pickMax, h]
      rw [hpick]
      obtain ⟨l1, l2, heq, h1, h2⟩ := ih x
      have hxler : key x ≤ key (xs.foldl (pickMax key) x) := by
        cases l1 with
        | nil =>
          simp only [List.nil_append] at heq
          injection heq with hx hxs
          exact le_of_eq (congrArg key hx)
        | cons a l1' =>
          simp only [List.cons_append] at heq
          injection heq with hx hxs
          have ha := h1 a (by simp)
          rw [← hx] at ha
          exact le_of_lt ha
      refine ⟨c :: l1, l2, ?_, ?_, h2⟩
      · rw [List.cons_append, ← heq]
      · intro y hy
        rcases List.mem_cons.mp hy with rfl | hy
        · exact lt_of_lt_of_le h hxler
        · exact h1 y hy
    · have hpick : pickMax key c x = c := by simp [pickMax, h]
      rw [hpick]
      have hxlec : key x ≤ key c := le_of_not_lt h
      obtain ⟨l1, l2, heq, h1, h2⟩ := ih c
      cases l1 with
      | nil =>
        simp only [List.nil_append] at heq
        injection heq with hrc hl2
        refine ⟨[], x :: xs, ?_, by simp, ?_⟩
        · rw [List.nil_append, ← hrc]
        · intro y hy
          rcases List.mem_cons.mp hy with rfl | hy
          · exact hxlec.trans (le_of_eq (congrArg key hrc))
          · exact h2 y (hl2 ▸ hy)
      | cons a l1' =>
        simp only [List.cons_append] at heq
        injection heq with hac hxs
        have hcr : key c < key (xs.foldl (pickMax key) c) := by
          have ha := h1 a (by simp)
          rw [← hac] at ha
          exact ha
        refine ⟨c :: x :: l1', l2, ?_, ?_, h2⟩
        · simp only [List.cons_append]
          rw [← hxs]
        · intro y hy
          rcases List.mem_cons.mp hy with rfl | hy
          · exact hcr
          · rcases List.mem_cons.mp hy with rfl | hy
            · exact lt_of_le_of_lt hxlec hcr
            · exact h1 y (by simp [hy])

/-- Auxiliary: winner characterization of the constituency extractor:
None exactly when no candidate has a known vote count; otherwise the
winner is the first candidate of the known-votes sublist attaining the
maximal vote count. -/
theorem winnerOf_spec (cs : List Candidate) :
    (winnerOf cs = none → ∀ c ∈ cs, c.votes = none) ∧
    (∀ w, winnerOf cs = some w →
      ∃ l1 l2, cs.filter (fun c => c.votes.isSome) = l1 ++ w :: l2 ∧
        (∀ y ∈ l1, y.votes.getD 0 < w.votes.getD 0) ∧
        (∀ y ∈ l2, y.votes.getD 0 ≤ w.votes.getD 0)) := by
  constructor
  · intro hnone c hc
    unfold winnerOf at hnone
    cases hf : cs.filter (fun c => c.votes.isSome) with
    | nil =>
      by_contra hne
      have : c ∈ cs.filter (fun c => c.votes.isSome) :=
        List.mem_filter.mpr ⟨hc, by simp [Option.isSome_iff_ne_none, hne]⟩
      rw [hf] at this
      simp at this
    | cons a t => rw [hf] at hnone; simp at hnone
  · intro w hw
    unfold winnerOf at hw
    cases hf : cs.filter (fun c => c.votes.isSome) with
    | nil => rw [hf] at hw; simp at hw
    | cons a t =>
      rw [hf] at hw
      simp only [Option.some.injEq] at hw
      obtain ⟨l1, l2, heq, h1, h2⟩ := foldl_pickMax_first (fun c => c.votes.getD 0) t a
      rw [hw] at heq h1 h2
      exact ⟨l1, l2, hf ▸ heq, h1, h2⟩

/-- C4: total_votes sums exactly the known vote counts; a group all of
whose candidates have unknown votes gets the all-null winner; and a
winner, when present, is the first candidate in candidate order attaining
the maximum known vote count, its fields copied into the winner
record. -/
theorem C4_total_winner : ∀ (name : String) (e t tp : Option Int) (cs : List Candidate),
    (buildConstituency name ⟨e, t, tp, cs⟩).total_votes =
      (cs.filterMap (fun c => c.votes)).sum ∧
    ((∀ c ∈ cs, c.votes = none) →
      (buildConstituency name ⟨e, t, tp, cs⟩).winner = ⟨none, none, none⟩) ∧
    (∀ w, winnerOf cs = some w →
      (buildConstituency name ⟨e, t, tp, cs⟩).winner =
        ⟨some w.candidate, some w.party, w.votes⟩ ∧
      ∃ l1 l2, cs.filter (fun c => c.votes.isSome) = l1 ++ w :: l2 ∧
        (∀ y ∈ l1, y.votes.getD 0 < w.votes.getD 0) ∧
        (∀ y ∈ l2, y.votes.getD 0 ≤ w.votes.getD 0)) := by
  intro name e t tp cs
  refine ⟨?_, ?_, ?_⟩
  · show ((cs.filter (fun c => c.votes.isSome)).map (fun c => c.votes.getD 0)).sum =
      (cs.filterMap (fun c => c.votes)).sum
    induction cs with
    | nil => rfl
    | cons c cs ih =>
      cases hv : c.votes with
      | none => simp [List.filter_cons, List.filterMap_cons, hv, ih]
      | some v => simp [List.filter_cons, List.filterMap_cons, hv, ih]
  · intro hall
    have hf : cs.filter (fun c => c.votes.isSome) = [] := by
      cases hf : cs.filter (fun c => c.votes.isSome) with
      | nil => rfl
      | cons a l =>
        exfalso
        have ha : a ∈ cs.filter (fun c => c.votes.isSome) := by rw [hf]; simp
        have hp := List.mem_filter.mp ha
        rw [hall a hp.1] at hp
        simp at hp
    show (match winnerOf cs with
      | some w => (⟨some w.candidate, some w.party, w.votes⟩ : WinnerRec)
      | none => ⟨none, none, none⟩) = ⟨none, none, none⟩
    unfold winnerOf
    rw [hf]
  · intro w hw
    refine ⟨?_, (winnerOf_spec cs).2 w hw⟩
    show (match winnerOf cs with
      | some w => (⟨some w.candidate, some w.party, w.votes⟩ : WinnerRec)
      | none => ⟨none, none, none⟩) = ⟨some w.candidate, some w.party, w.votes⟩
    rw [hw]

/-- C4 (witness): the specification's concrete scenarios: votes
[1000, null, 2500] give total 3500 and winner votes 2500; an all-null
group gets the all-null winner. -/
theorem C4_total_winner_witness :
    (buildConstituency "X" ⟨none, none, none, exCandidates⟩).total_votes = 3500 ∧
    (buildConstituency "X" ⟨none, none, none, exCandidates⟩).winner.votes = some 2500 ∧
    (buildConstituency "Y" ⟨none, none, none, exAllNone⟩).winner = ⟨none, none, none⟩ := by
  have h := C4_total_winner "X" none none none exCandidates
  have h2 := C4_total_winner "Y" none none none exAllNone
  refine ⟨?_, ?_, h2.2.1 (by decide)⟩
  · rw [h.1]; decide
  · have hw := (h.2.2 ⟨"C", "PC", some 2500, none⟩ (by decide)).1
    rw [hw]

/-- Auxiliary: appending a candidate to an existing group changes no
group name. -/
theorem appendCandidate_keys (l : List (String × GroupData)) (k : String)
    (cand : Candidate) :
    (appendCandidate l k cand).map Prod.fst = l.map Prod.fst := by
  unfold appendCandidate
  rw [List.map_map]
  apply List.map_congr_left
  intro p _
  simp only [Function.comp_apply]
  split <;> rfl

/-- Auxiliary: a name absent from the accumulator per the membership test
is not among its keys. -/
theorem not_mem_of_assocHas_false (l : List (String × GroupData)) (k : String)
    (h : assocHas l k = false) : k ∉ l.map Prod.fst := by
  intro hmem
  obtain ⟨p, hp, hpk⟩ := List.mem_map.mp hmem
  have htrue : l.any (fun p => p.1 == k) = true :=
    List.any_eq_true.mpr ⟨p, hp, by simp [hpk]⟩
  unfold assocHas at h
  rw [htrue] at h
  simp at h

/-- Auxiliary: the dict update of one kept candidate row either changes
no group name or appends the one current name, which was absent. -/
theorem constUpdate_keys (groups : List (String × GroupData)) (cur : String)
    (fresh : GroupData) (cand : Candidate) :
    (constUpdate groups cur fresh cand).map Prod.fst = groups.map Prod.fst ∨
    (assocHas groups cur = false ∧
      (constUpdate groups cur fresh cand).map Prod.fst = groups.map Prod.fst ++ [cur]) := by
  unfold constUpdate
  by_cases h : assocHas groups cur = true
  · rw [if_pos h]
    exact Or.inl (appendCandidate_keys _ _ _)
  · have hf : assocHas groups cur = false := by
      revert h
      cases assocHas groups cur <;> simp
    rw [if_neg h]
    exact Or.inr ⟨hf, by simp⟩

/-- Auxiliary: every body-step result either keeps the accumulated groups
verbatim or passes them through the dict update. -/
theorem constStepBody_shape (cols : ConstCols) (st : ConstState) (fc : Cell)
    (rc : List Cell) :
    (∃ y, constStepBody cols st fc rc = (st.1, y)) ∨
    (∃ cur fresh cand,
      constStepBody cols st fc rc = (constUpdate st.1 cur fresh cand, some cur)) := by
  unfold constStepBody
  dsimp only
  repeat' split
  all_goals first
    | exact Or.inl ⟨_, rfl⟩
    | exact Or.inr ⟨_, _, _, rfl⟩

/-- Auxiliary: one body step either keeps the group names unchanged or
appends exactly one genuinely new name at the end. -/
theorem constStepBody_keys (cols : ConstCols) (st : ConstState) (fc : Cell)
    (rc : List Cell) :
    (constStepBody cols st fc rc).1.map Prod.fst = st.1.map Prod.fst ∨
    ∃ k, k ∉ st.1.map Prod.fst ∧
      (constStepBody cols st fc rc).1.map Prod.fst = st.1.map Prod.fst ++ [k] := by
  rcases constStepBody_shape cols st fc rc with ⟨y, hy⟩ | ⟨cur, fresh, cand, hy⟩
  · rw [hy]
    exact Or.inl rfl
  · rw [hy]
    rcases constUpdate_keys st.1 cur fresh cand with hk | ⟨hf, hk⟩
    · exact Or.inl hk
    · exact Or.inr ⟨cur, not_mem_of_assocHas_false _ _ hf, hk⟩

/-- Auxiliary: one row step either keeps the group names unchanged or
appends exactly one genuinely new name at the end. -/
theorem constStep_keys (cols : ConstCols) (st : ConstState) (row : Row) :
    (constStep cols st row).1.map Prod.fst = st.1.map Prod.fst ∨
    ∃ k, k ∉ st.1.map Prod.fst ∧
      (constStep cols st row).1.map Prod.fst = st.1.map Prod.fst ++ [k] := by
  unfold constStep
  cases hc : rowCells row with
  | nil => exact Or.inl rfl
  | cons fc rc =>
    dsimp only
    by_cases hf : isFooterRow constFooterKeywords (strLower (clean_text (rowText row))) = true
    · rw [if_pos hf]
      exact Or.inl rfl
    · rw [if_neg hf]
      exact constStepBody_keys cols st fc rc

/-- Auxiliary: walking any row list preserves distinctness of the
accumulated group names. -/
theorem foldl_constStep_nodup (cols : ConstCols) (rows : List Row) :
    ∀ st : ConstState, (st.1.map Prod.fst).Nodup →
      ((rows.foldl (constStep cols) st).1.map Prod.fst).Nodup := by
  induction rows with
  | nil => intro st h; simpa using h
  | cons r rs ih =>
    intro st h
    rw [List.foldl_cons]
    apply ih
    rcases constStep_keys cols st r with heq | ⟨k, hk, heq⟩
    · rw [heq]; exact h
    · rw [heq]
      exact List.Nodup.append h (List.nodup_singleton k)
        (by intro a ha hb; rw [List.mem_singleton] at hb; exact hk (hb ▸ ha))

/-- C8: constituency names are unique in every output of the constituency
extractor, and the underlying accumulator step merges a repeated name
into the existing group (names unchanged) or appends one genuinely new
name at the end, preserving first-occurrence order. -/
theorem C8_unique_names :
    (∀ table : Table,
      ((parse_by_constituency_table table).map (fun g => g.constituency)).Nodup) ∧
    (∀ (cols : ConstCols) (st : ConstState) (row : Row),
      (constStep cols st row).1.map Prod.fst = st.1.map Prod.fst ∨
      ∃ k, k ∉ st.1.map Prod.fst ∧
        (constStep cols st row).1.map Prod.fst = st.1.map Prod.fst ++ [k]) := by
  constructor
  · intro table
    unfold parse_by_constituency_table
    dsimp only
    split
    · simp
    · split
      · simp
      · rw [List.map_map]
        exact foldl_constStep_nodup _ _ ([], none) (by simp)
  · exact fun cols st row => constStep_keys cols st row

end Grenada
